import Mathlib

/-!
# Version store of `versions.c`

A shallow embedding of the functions of `src/versions.c` over an explicit
repository state: the files reachable by path, the records of the version
database, and the sequence of events (file operations, invocations of
`add_new_version`) recorded so far.

* The header `versions.h` is not among the sources; what the functions take from
  it (`VERSIONS_DIR`, the integer values of the `return_code` enumerators, the
  digest routine) is a parameter, `Header`.
* Values that C leaves indeterminate (locals that are never assigned, the value
  read from a function that ends without `return`) are a parameter, `Undef`.
* Console output (`printf`, `perror`) is not modelled.  Paths are compared as
  written, a character counts as one byte, and permissions are not modelled.
* `add` is written as its numbered steps: `add_from_step2`, `add_from_step3` and
  `add_after_append` are the remainders of its body from step 2, from step 3 and
  after the call of `add_new_version`.
-/

namespace Versions

/-! ## Data model -/

/-- The bound `PATH_MAX` of `linux/limits.h`. -/
def PATH_MAX : Nat := 4096

/-- Result codes used by `versions.c` (enumeration `return_code`). -/
inductive return_code
  | VERSION_ERROR
  | VERSION_CREATED
  | VERSION_ADDED
  | VERSION_ALREADY_EXISTS
  deriving DecidableEq, Repr

/-- One version record (`file_version`): the fields the code reads or passes on. -/
structure file_version where
  filename : String
  hash : String
  comment : String
  deriving DecidableEq, Repr

/-- What `versions.c` takes from the absent header `versions.h`: the repository
directory, the integer value of each enumerator of `return_code`, and the digest
routine `sha256_hash_file_hex`, seen as a function of the content of the file. -/
structure Header where
  VERSIONS_DIR : String
  code : return_code → Int
  sha256_hash_file_hex : String → String

/-- Values the C text leaves indeterminate in one execution: the never assigned
local `v` of `add`, the never assigned local `r` of `get`, and the value a caller
receives from `copy`, whose body has no `return` statement. -/
structure Undef where
  add_v : file_version
  get_r : file_version
  copy_ret : Int

/-- A node of the file system: a regular file with its content, or a directory. -/
inductive Node
  | regular (content : String)
  | directory
  deriving DecidableEq, Repr

/-- An event of a run: a file operation issued through the C library, or the
entry into `add_new_version` (kept so that the trace tells whether the function
was invoked). -/
inductive Call
  | fopen_r (path : String)
  | fopen_w (path : String)
  | remove (path : String)
  | add_new_version (v : file_version)
  deriving DecidableEq, Repr

/-- State of the repository and its surroundings: the nodes by path (the first
entry for a path is the node), the records held by the version database, and the
events recorded so far, oldest first. -/
structure Repo where
  fs : List (String × Node)
  log : List file_version
  calls : List Call
  deriving DecidableEq, Repr

/-! ## File system primitives -/

/-- Node found at a path, if any. -/
def fs_get : List (String × Node) → String → Option Node
  | [], _ => none
  | (q, n) :: rest, p => if q = p then some n else fs_get rest p

/-- Set the node at a path, in place when the path is present. -/
def fs_put : List (String × Node) → String → Node → List (String × Node)
  | [], p, n => [(p, n)]
  | (q, m) :: rest, p, n => if q = p then (q, n) :: rest else (q, m) :: fs_put rest p n

/-- Drop every entry for a path. -/
def fs_del : List (String × Node) → String → List (String × Node)
  | [], _ => []
  | (q, n) :: rest, p => if q = p then fs_del rest p else (q, n) :: fs_del rest p

/-- Directory part of a path: what precedes the last slash; `none` for a path
without a slash (an entry of the current directory). -/
def dirname (p : String) : Option String :=
  if p.data.contains '/' then
    some (String.mk (((p.data.reverse.dropWhile (fun c => c ≠ '/')).drop 1).reverse))
  else none

/-- Whether an entry can be created at a path: the directory part is the current
directory, the root, or an existing directory. -/
def parent_ok (fs : List (String × Node)) (p : String) : Bool :=
  match dirname p with
  | none => true
  | some d => d = "" || fs_get fs d = some Node.directory

/-- Whether some entry lies directly inside the directory `d`. -/
def has_child (fs : List (String × Node)) (d : String) : Bool :=
  fs.any (fun e => dirname e.1 = some d)

/-- Library call `stat` followed by `S_ISREG`: the content when the path is an
existing regular file. -/
def stat_regular (s : Repo) (p : String) : Option String :=
  match fs_get s.fs p with
  | some (Node.regular c) => some c
  | _ => none

/-- Library call `fopen(p, "r")`: no change to any file. -/
def fopen_r (s : Repo) (p : String) : Repo :=
  { s with calls := s.calls ++ [Call.fopen_r p] }

/-- Library call `fopen(p, "w")`: an existing regular file is truncated, a missing
one is created empty when its directory exists; a directory or the empty path
is refused. -/
def fopen_w (s : Repo) (p : String) : Repo :=
  let s1 : Repo := { s with calls := s.calls ++ [Call.fopen_w p] }
  match fs_get s.fs p with
  | some Node.directory => s1
  | some (Node.regular _) => { s1 with fs := fs_put s.fs p (Node.regular "") }
  | none =>
    if p ≠ "" ∧ parent_ok s.fs p = true then
      { s1 with fs := fs_put s.fs p (Node.regular "") }
    else s1

/-- Library call `remove(p)`: deletes a regular file or an empty directory. -/
def remove (s : Repo) (p : String) : Repo :=
  let s1 : Repo := { s with calls := s.calls ++ [Call.remove p] }
  match fs_get s.fs p with
  | some (Node.regular _) => { s1 with fs := fs_del s.fs p }
  | some Node.directory => if has_child s.fs p then s1 else { s1 with fs := fs_del s.fs p }
  | none => s1

/-- Result of `snprintf(buf, PATH_MAX, "%s/%s", VERSIONS_DIR, hash)`: the joined
text cut to `PATH_MAX - 1` characters. -/
def blob_path (h : Header) (hash : String) : String :=
  String.mk ((h.VERSIONS_DIR ++ "/" ++ hash).data.take (PATH_MAX - 1))

/-- C string designated by a pointer that was obtained by converting a character
value.  Such a value (between -128 and 255) is not the address of any object of
the process, so no string can be read through it. -/
def string_at_char (_c : Char) : Option String := none

/-- Library call `strcmp`, up to the sign convention: 0 exactly for equal texts. -/
def strcmp (a b : String) : Int :=
  if a = b then 0 else if a < b then -1 else 1

/-! ## Functions of `versions.c` -/

/-- Function `create_version`: the body is the single statement
`return VERSION_ERROR;`, the record passed by reference is left as it was. -/
def create_version (_filename _comment : String) (result : file_version) :
    return_code × file_version :=
  (return_code.VERSION_ERROR, result)

/-- Function `get_file_hash`: `none` is `NULL`; `some d` is the buffer `hash`
returned after the digest `d` was written to it. -/
def get_file_hash (h : Header) (s : Repo) (filename : String) (_hash : String) :
    Option String :=
  match stat_regular s filename with
  | none => none
  | some c => some (h.sha256_hash_file_hex c)

/-- Function `copy`: opens the source for reading and the destination for
writing, transfers nothing, and ends without `return`. -/
def copy (u : Undef) (s : Repo) (source destination : String) : Int × Repo :=
  let s1 := fopen_r s source
  let s2 := fopen_w s1 destination
  (u.copy_ret, s2)

/-- Function `version_exists`: the call is
`strcmp(*hash, get_file_hash(*filename, *hash))`, where the first character of
each argument is used as a pointer.  `none` stands for an execution that does not
return (an access through such a pointer, or `strcmp` on `NULL`).  Both arguments
of `strcmp` designate the one buffer in which `get_file_hash` leaves the digest. -/
def version_exists (h : Header) (s : Repo) (filename hash : String) : Option Int :=
  match string_at_char (filename.data.headD (Char.ofNat 0)),
        string_at_char (hash.data.headD (Char.ofNat 0)) with
  | some path, some buf =>
    match get_file_hash h s path buf with
    | none => none
    | some d => if strcmp d d = 0 then some 0 else some 1
  | _, _ => none

/-- Function `store_file`. -/
def store_file (h : Header) (u : Undef) (s : Repo) (filename hash : String) : Int × Repo :=
  copy u s filename (blob_path h hash)

/-- Function `retrieve_file`. -/
def retrieve_file (h : Header) (u : Undef) (s : Repo) (hash filename : String) : Int × Repo :=
  copy u s (blob_path h hash) filename

/-- Function `add_new_version`: declares a stream and returns 0; the database is
not opened and nothing is appended.  The invocation is recorded in the trace. -/
def add_new_version (v : file_version) (s : Repo) : Int × Repo :=
  (0, { s with calls := s.calls ++ [Call.add_new_version v] })

/-- End of `add`, after `add_new_version` returned `a`: the test `== 0` and the
`else` branch with `remove(filename)`. -/
def add_after_append (filename : String) (a : Int) (s : Repo) : return_code × Repo :=
  if a = 0 then (return_code.VERSION_ADDED, s)
  else (return_code.VERSION_ERROR, remove s filename)

/-- Steps 3 and 4 of `add`: `store_file`, then `add_new_version`. -/
def add_from_step3 (h : Header) (u : Undef) (s : Repo) (filename : String)
    (v : file_version) : return_code × Repo :=
  let r := store_file h u s filename v.hash
  if r.1 ≠ 0 then (return_code.VERSION_ERROR, r.2)
  else
    let a := add_new_version v r.2
    add_after_append filename a.1 a.2

/-- Step 2 of `add` and what follows: the test on `version_exists`. -/
def add_from_step2 (h : Header) (u : Undef) (s : Repo) (filename : String)
    (v : file_version) : Option (return_code × Repo) :=
  match version_exists h s filename v.hash with
  | none => none
  | some e =>
    if e = 0 then some (return_code.VERSION_ALREADY_EXISTS, s)
    else some (add_from_step3 h u s filename v)

/-- Function `add`.  Step 1 compares the result of `create_version` with `NULL`,
that is, its integer value with 0.  `none` stands for an execution that does not
return. -/
def add (h : Header) (u : Undef) (s : Repo) (filename comment : String) :
    Option (return_code × Repo) :=
  let c := create_version filename comment u.add_v
  if h.code c.1 = 0 then some (return_code.VERSION_ERROR, s)
  else add_from_step2 h u s filename c.2

/-- Function `get`: the record `r` is never filled from the database. -/
def get (h : Header) (u : Undef) (s : Repo) (_filename : String) (_version : Int) :
    Int × Repo :=
  let r := u.get_r
  let c := retrieve_file h u s r.hash r.filename
  if c.1 ≠ 0 then (-1, c.2) else (0, c.2)

/-! ## Sample data -/

/-- A header with the enumerators numbered in the order of `return_code`, the
directory `.versions`, and a stand-in digest. -/
def sampleHeader : Header where
  VERSIONS_DIR := ".versions"
  code := fun c =>
    match c with
    | return_code.VERSION_ERROR => 0
    | return_code.VERSION_CREATED => 1
    | return_code.VERSION_ADDED => 2
    | return_code.VERSION_ALREADY_EXISTS => 3
  sha256_hash_file_hex := fun c => "digest-of-" ++ c

/-- Indeterminate values of a sample execution in which `copy` yields `ret`. -/
def sampleUndef (ret : Int) : Undef where
  add_v := ⟨"", "", ""⟩
  get_r := ⟨"report.txt", "digest-of-v1", ""⟩
  copy_ret := ret

/-- A repository with no version yet: the user's file `report.txt` with content
`v1` and the empty repository directory. -/
def freshRepo (h : Header) : Repo where
  fs := [("report.txt", Node.regular "v1"), (h.VERSIONS_DIR, Node.directory)]
  log := []
  calls := []

/-- A repository in which `report.txt` with content `v1` was versioned: its blob
is stored and the database holds the record. -/
def versionedRepo (h : Header) : Repo where
  fs := [("report.txt", Node.regular "v1"), (h.VERSIONS_DIR, Node.directory),
         (h.VERSIONS_DIR ++ "/" ++ h.sha256_hash_file_hex "v1", Node.regular "v1")]
  log := [⟨"report.txt", h.sha256_hash_file_hex "v1", "first"⟩]
  calls := []

/-- The record of `report.txt` with content `v1` under a given header. -/
def firstRecord (h : Header) : file_version :=
  ⟨"report.txt", h.sha256_hash_file_hex "v1", "first"⟩

/-! ## Lemmas on the primitives -/

theorem fs_get_put_same (fs : List (String × Node)) (p : String) (n : Node) :
    fs_get (fs_put fs p n) p = some n := by
  induction fs with
  | nil => simp [fs_put, fs_get]
  | cons e rest ih =>
    obtain ⟨q, m⟩ := e
    by_cases hq : q = p
    · simp [fs_put, fs_get, hq]
    · simp [fs_put, fs_get, hq, ih]

theorem fs_get_put_other (fs : List (String × Node)) (p q : String) (n : Node)
    (hpq : q ≠ p) : fs_get (fs_put fs p n) q = fs_get fs q := by
  induction fs with
  | nil =>
    have hne : ¬ p = q := fun e => hpq e.symm
    simp [fs_put, fs_get, hne]
  | cons e rest ih =>
    obtain ⟨r, m⟩ := e
    by_cases hr : r = p
    · subst hr
      have hne : ¬ r = q := fun e => hpq e.symm
      simp [fs_put, fs_get, hne]
    · by_cases hrq : r = q
      · subst hrq
        simp [fs_put, fs_get, hr]
      · simp [fs_put, fs_get, hr, hrq, ih]

theorem fopen_w_log (s : Repo) (p : String) : (fopen_w s p).log = s.log := by
  unfold fopen_w
  split
  · rfl
  · rfl
  · split <;> rfl

theorem fopen_w_calls (s : Repo) (p : String) :
    (fopen_w s p).calls = s.calls ++ [Call.fopen_w p] := by
  unfold fopen_w
  split
  · rfl
  · rfl
  · split <;> rfl

/-- Opening an existing regular file for writing leaves it empty. -/
theorem fopen_w_truncates (s : Repo) (p d : String)
    (hd : stat_regular s p = some d) : stat_regular (fopen_w s p) p = some "" := by
  unfold stat_regular at hd
  cases hg : fs_get s.fs p with
  | none => simp [hg] at hd
  | some n =>
    cases n with
    | directory => simp [hg] at hd
    | regular c => simp [fopen_w, stat_regular, hg, fs_get_put_same]

theorem copy_log (u : Undef) (s : Repo) (a b : String) : (copy u s a b).2.log = s.log := by
  simp [copy, fopen_w_log, fopen_r]

theorem version_exists_none (h : Header) (s : Repo) (filename hash : String) :
    version_exists h s filename hash = none := by
  simp [version_exists, string_at_char]

/-- Every execution of `add` either stops at step 1 with `VERSION_ERROR` and an
untouched state, or does not return. -/
theorem add_cases (h : Header) (u : Undef) (s : Repo) (filename comment : String) :
    add h u s filename comment =
      if h.code return_code.VERSION_ERROR = 0 then some (return_code.VERSION_ERROR, s)
      else none := by
  simp [add, create_version, add_from_step2, version_exists_none]

/-- No call of `add` answers `VERSION_ADDED`. -/
theorem add_never_added (h : Header) (u : Undef) (s : Repo) (filename comment : String)
    (r : Repo) : add h u s filename comment ≠ some (return_code.VERSION_ADDED, r) := by
  rw [add_cases]
  split <;> simp

/-- C1: `report.txt` is a regular file whose content is already recorded under its
name and whose blob is stored; `add` stops at step 1 with `VERSION_ERROR` (or does
not return), and so never answers `VERSION_ALREADY_EXISTS`. -/
theorem add_recorded_content (h : Header) (u : Undef) (comment : String) :
    stat_regular (versionedRepo h) "report.txt" = some "v1" ∧
    firstRecord h ∈ (versionedRepo h).log ∧
    add h u (versionedRepo h) "report.txt" comment =
      (if h.code return_code.VERSION_ERROR = 0 then
        some (return_code.VERSION_ERROR, versionedRepo h) else none) ∧
    ∀ r, add h u (versionedRepo h) "report.txt" comment ≠
      some (return_code.VERSION_ALREADY_EXISTS, r) := by
  refine ⟨?_, ?_, add_cases _ _ _ _ _, ?_⟩
  · simp [stat_regular, versionedRepo, fs_get]
  · simp [versionedRepo, firstRecord]
  · intro r
    rw [add_cases]
    split <;> simp

/-- C2: the first `add` of the regular file `report.txt` into a repository without
any record stops at step 1 with `VERSION_ERROR` (or does not return), and so never
answers `VERSION_ADDED`. -/
theorem add_first_version (h : Header) (u : Undef) (comment : String) :
    stat_regular (freshRepo h) "report.txt" = some "v1" ∧
    (freshRepo h).log = [] ∧
    add h u (freshRepo h) "report.txt" comment =
      (if h.code return_code.VERSION_ERROR = 0 then
        some (return_code.VERSION_ERROR, freshRepo h) else none) ∧
    ∀ r, add h u (freshRepo h) "report.txt" comment ≠
      some (return_code.VERSION_ADDED, r) := by
  refine ⟨?_, rfl, add_cases _ _ _ _ _, ?_⟩
  · simp [stat_regular, freshRepo, fs_get]
  · intro r
    rw [add_cases]
    split <;> simp

/-- C6: with `VERSION_ERROR` valued 0, `add` of a path that is absent or is a
directory answers `VERSION_ERROR` and leaves files, records and file operations
as they were; `get_file_hash` yields `NULL` exactly for such paths and yields
the buffer holding the digest for a regular file. -/
theorem add_rejects_non_regular (h : Header) (u : Undef) (s : Repo)
    (filename comment buf : String)
    (h0 : h.code return_code.VERSION_ERROR = 0)
    (hf : fs_get s.fs filename = none ∨ fs_get s.fs filename = some Node.directory) :
    add h u s filename comment = some (return_code.VERSION_ERROR, s) ∧
    get_file_hash h s filename buf = none ∧
    (∀ f : String, get_file_hash h s f buf = none ↔
      (fs_get s.fs f = none ∨ fs_get s.fs f = some Node.directory)) ∧
    (∀ (f c : String), fs_get s.fs f = some (Node.regular c) →
      get_file_hash h s f buf = some (h.sha256_hash_file_hex c)) := by
  refine ⟨?_, ?_, ?_, ?_⟩
  · rw [add_cases, if_pos h0]
  · rcases hf with hf | hf <;> simp [get_file_hash, stat_regular, hf]
  · intro f
    unfold get_file_hash stat_regular
    cases hg : fs_get s.fs f with
    | none => simp
    | some n => cases n <;> simp
  · intro f c hc
    simp [get_file_hash, stat_regular, hc]

theorem add_rejects_non_regular_witness :
    sampleHeader.code return_code.VERSION_ERROR = 0 ∧
    (fs_get (freshRepo sampleHeader).fs "absent.txt" = none ∨
      fs_get (freshRepo sampleHeader).fs "absent.txt" = some Node.directory) ∧
    add sampleHeader (sampleUndef 0) (freshRepo sampleHeader) "absent.txt" "first" =
      some (return_code.VERSION_ERROR, freshRepo sampleHeader) :=
  ⟨rfl, Or.inl (by decide),
    (add_rejects_non_regular sampleHeader (sampleUndef 0) (freshRepo sampleHeader)
      "absent.txt" "first" "" rfl (Or.inl (by decide))).1⟩

/-- C7: `get` does not look at the file name, the version number or the records:
its answer is 0 when the value left by `copy` is 0 and -1 otherwise, it opens for
writing the path found in the unassigned record, and a regular file at that path
is emptied.  In a repository without any record, `get` of version 1 of
`report.txt` can answer 0 and empty `report.txt`. -/
theorem get_never_reads_log (h : Header) (u : Undef) (s : Repo) (filename : String)
    (version : Int) :
    (get h u s filename version).1 = (if u.copy_ret = 0 then 0 else -1) ∧
    (get h u s filename version).2.calls =
      s.calls ++ [Call.fopen_r (blob_path h u.get_r.hash), Call.fopen_w u.get_r.filename] ∧
    (∀ d, stat_regular s u.get_r.filename = some d →
      stat_regular (get h u s filename version).2 u.get_r.filename = some "") ∧
    (freshRepo h).log = [] ∧
    (get h (sampleUndef 0) (freshRepo h) "report.txt" 1).1 = 0 ∧
    stat_regular (get h (sampleUndef 0) (freshRepo h) "report.txt" 1).2 "report.txt"
      = some "" := by
  have key : ∀ (u : Undef) (s : Repo) (d : String),
      stat_regular s u.get_r.filename = some d →
      stat_regular (get h u s filename version).2 u.get_r.filename = some "" := by
    intro u s d hd
    have h1 : stat_regular (fopen_r s (blob_path h u.get_r.hash)) u.get_r.filename
        = some d := hd
    have h2 := fopen_w_truncates _ _ _ h1
    by_cases hc : u.copy_ret = 0 <;> simpa [get, retrieve_file, copy, hc] using h2
  refine ⟨?_, ?_, key u s, rfl, ?_, ?_⟩
  · by_cases hc : u.copy_ret = 0 <;> simp [get, retrieve_file, copy, hc]
  · by_cases hc : u.copy_ret = 0 <;>
      simp [get, retrieve_file, copy, hc, fopen_w_calls, fopen_r]
  · simp [get, retrieve_file, copy, sampleUndef]
  · have h3 : stat_regular (freshRepo h) (sampleUndef 0).get_r.filename = some "v1" := by
      simp [stat_regular, freshRepo, sampleUndef, fs_get]
    have h4 := key (sampleUndef 0) (freshRepo h) "v1" h3
    simpa [get, retrieve_file, copy, sampleUndef] using h4

/-- C8: after `copy`, a destination that was a regular file is empty, whatever
the source holds; nothing of the source is transferred. -/
theorem copy_leaves_destination_empty (u : Undef) (s : Repo) (source destination c d : String)
    (hs : stat_regular s source = some c) (hd : stat_regular s destination = some d) :
    stat_regular (copy u s source destination).2 source = (if source = destination then some "" else some c) ∧
    stat_regular (copy u s source destination).2 destination = some "" := by
  have h1 : stat_regular (fopen_r s source) destination = some d := hd
  have h2 := fopen_w_truncates _ _ _ h1
  refine ⟨?_, by simpa [copy] using h2⟩
  by_cases he : source = destination
  · subst he
    simpa [copy] using h2
  · simp only [if_neg he]
    unfold stat_regular at hs hd ⊢
    cases hg : fs_get s.fs destination with
    | none => simp [hg] at hd
    | some n =>
      cases n with
      | directory => simp [hg] at hd
      | regular e =>
        simp [copy, fopen_w, fopen_r, hg, fs_get_put_other _ _ _ _ he]
        exact hs

theorem copy_leaves_destination_empty_witness :
    stat_regular (versionedRepo sampleHeader) ".versions/digest-of-v1" = some "v1" ∧
    stat_regular (versionedRepo sampleHeader) "report.txt" = some "v1" ∧
    stat_regular (copy (sampleUndef 0) (versionedRepo sampleHeader)
      ".versions/digest-of-v1" "report.txt").2 "report.txt" = some "" :=
  ⟨by decide, by decide,
    (copy_leaves_destination_empty (sampleUndef 0) (versionedRepo sampleHeader)
      ".versions/digest-of-v1" "report.txt" "v1" "v1" (by decide) (by decide)).2⟩

/-! ## Blob addressing -/

end Versions
